import Mathlib

/-!
Shallow embedding of the sliding-window rate limiter of the `jump` repository.

The embedded code:
- `src/src/infrastructure/rate_limit/mod.rs`: `RateLimitConfig`,
  `RateLimitError`, `RedisRateLimiter::rate_limit_key`, and
  `check_rate_limit` (the five Redis commands ZADD, EXPIRE,
  ZREMRANGEBYSCORE, ZCOUNT, ZRANGE it issues, modelled by their
  documented Redis semantics on a pure sorted-set value).
- `src/src/api/middleware/rate_limit.rs`: the `call` method of the rate
  limit middleware service (its decision on the limiter's result).

Machine integers are modelled as `Nat`; the `u64` subtractions of the
source are modelled by the wrapping subtraction `u64sub` (Rust release
semantics), and the `u32` multiplication `window_seconds * 2` by an
explicit `% 2^32`.
-/

/-- `2^64`, the modulus of Rust's `u64`. -/
def U64 : Nat := 2 ^ 64

/-- `2^32`, the modulus of Rust's `u32`. -/
def U32 : Nat := 2 ^ 32

/-- Wrapping `u64` subtraction: `a - b` as Rust computes it in release
mode on `u64` operands (two's-complement wraparound). -/
def u64sub (a b : Nat) : Nat := (a % U64 + (U64 - b % U64)) % U64

/-- `RateLimitConfig` from `rate_limit/mod.rs` (both fields are `u32` in
the source; values are below `2^32`). -/
structure RateLimitConfig where
  max_requests : Nat
  window_seconds : Nat
deriving DecidableEq

/-- `RateLimitError` from `rate_limit/mod.rs`: `Redis(String)` for store
failures, `LimitExceeded(u64)` carrying the wait in seconds. -/
inductive RateLimitError where
  | redis (msg : String)
  | limitExceeded (waitSeconds : Nat)
deriving DecidableEq

/-- One Redis sorted set (the state under one `rate_limit:{key}` Redis
key): a list of `(member, score)` pairs with pairwise-distinct members,
plus the key's TTL as set by `EXPIRE`. -/
structure WindowSet where
  entries : List (String × Nat)
  ttl : Nat
deriving DecidableEq

/-- The empty sorted set: a missing Redis key. -/
def WindowSet.empty : WindowSet := ⟨[], 0⟩

/-- Redis `ZADD key score member`: if the member is already present its
score is updated, otherwise the `(member, score)` pair is added. -/
def zadd (w : WindowSet) (score : Nat) (member : String) : WindowSet :=
  if w.entries.any (fun e => e.1 = member) then
    { w with entries := w.entries.map (fun e => if e.1 = member then (member, score) else e) }
  else
    { w with entries := w.entries ++ [(member, score)] }

/-- Redis `EXPIRE key seconds`: sets the key's TTL. -/
def expire (w : WindowSet) (seconds : Nat) : WindowSet :=
  { w with ttl := seconds }

/-- Redis `ZREMRANGEBYSCORE key lo hi`: removes every entry whose score
lies in the inclusive range `[lo, hi]`. -/
def zremrangebyscore (w : WindowSet) (lo hi : Nat) : WindowSet :=
  { w with entries := w.entries.filter (fun e => !(lo ≤ e.2 && e.2 ≤ hi)) }

/-- Redis `ZCOUNT key lo +inf`: the number of entries whose score is at
least `lo` (inclusive lower bound). -/
def zcountGe (w : WindowSet) (lo : Nat) : Nat :=
  (w.entries.filter (fun e => lo ≤ e.2)).length

/-- Ordering of sorted-set entries: by score, ties broken by the member
string's lexicographic order (Redis rank order). -/
def entryLt (a b : String × Nat) : Bool :=
  a.2 < b.2 || (a.2 == b.2 && decide (a.1 < b.1))

/-- One fold step of the rank-0 lookup: keep the smaller entry. -/
def oldestStep (acc : Option (String × Nat)) (e : String × Nat) : Option (String × Nat) :=
  match acc with
  | none => some e
  | some b => if entryLt e b then some e else some b

/-- Redis `ZRANGE key 0 0 WITHSCORES`: the rank-0 (lowest) entry of the
sorted set, if any. -/
def oldestEntry (w : WindowSet) : Option (String × Nat) :=
  w.entries.foldl oldestStep none

/-- The member string `check_rate_limit` inserts for a request arriving
at second `now`: `format!("req:{}", now)`. -/
def memberFor (now : Nat) : String := "req:" ++ toString now

/-- `RedisRateLimiter::rate_limit_key`: `format!("rate_limit:{}", key)`. -/
def rateLimitKey (key : String) : String := "rate_limit:" ++ key

/-- Fault injection for the store round trips of `check_rate_limit`: for
each of the six fallible Redis interactions (connection acquisition,
ZADD insert, EXPIRE set-ttl, ZREMRANGEBYSCORE purge, ZCOUNT count,
ZRANGE oldest-entry lookup), `some msg` means that interaction fails
with the Redis error message `msg`, `none` that it succeeds. -/
structure Faults where
  conn : Option String
  insert : Option String
  ttl : Option String
  purge : Option String
  count : Option String
  oldest : Option String
deriving DecidableEq

/-- The fault assignment on a healthy store: every operation succeeds. -/
def noFaults : Faults := ⟨none, none, none, none, none, none⟩

/-- `check_rate_limit` from `rate_limit/mod.rs`, over the sorted set
stored at this key's `rate_limit:{key}` Redis key. Mirrors the source
line by line: compute `window_start = now - window_seconds`; ZADD the
member `req:{now}` with score `now`; EXPIRE the key to
`window_seconds * 2`; ZREMRANGEBYSCORE `0 window_start`; ZCOUNT
`window_start +inf`; if the count exceeds `max_requests`, ZRANGE the
oldest entry and return `LimitExceeded` with wait
`window_seconds - (now - t_oldest)` floored by `.max(1)` (or
`window_seconds` if no entry was found), else return `Ok(())`. Each
`map_err(... RateLimitError::Redis ...)?` point is modelled by the
corresponding `Faults` field; a failing operation leaves the store as
the preceding operations left it. -/
def checkRateLimitF (f : Faults) (cfg : RateLimitConfig) (now : Nat) (w : WindowSet) :
    Except RateLimitError Unit × WindowSet :=
  match f.conn with
  | some e => (.error (.redis e), w)
  | none =>
    let windowStart := u64sub now cfg.window_seconds
    match f.insert with
    | some e => (.error (.redis e), w)
    | none =>
      let w1 := zadd w now (memberFor now)
      match f.ttl with
      | some e => (.error (.redis e), w1)
      | none =>
        let w2 := expire w1 (cfg.window_seconds * 2 % U32)
        match f.purge with
        | some e => (.error (.redis e), w2)
        | none =>
          let w3 := zremrangebyscore w2 0 windowStart
          match f.count with
          | some e => (.error (.redis e), w3)
          | none =>
            let count := zcountGe w3 windowStart
            if count > cfg.max_requests then
              match f.oldest with
              | some e => (.error (.redis e), w3)
              | none =>
                match oldestEntry w3 with
                | some (_, t) =>
                  let waitTime := u64sub cfg.window_seconds (u64sub now t)
                  (.error (.limitExceeded (max waitTime 1)), w3)
                | none => (.error (.limitExceeded cfg.window_seconds), w3)
            else
              (.ok (), w3)

/-- `check_rate_limit` on a healthy store (all six store interactions
succeed): the happy-path body of `checkRateLimitF`, written out
directly. `checkRateLimitF_noFaults` below proves the two agree. -/
def checkRateLimit (cfg : RateLimitConfig) (now : Nat) (w : WindowSet) :
    Except RateLimitError Unit × WindowSet :=
  let windowStart := u64sub now cfg.window_seconds
  let w1 := zadd w now (memberFor now)
  let w2 := expire w1 (cfg.window_seconds * 2 % U32)
  let w3 := zremrangebyscore w2 0 windowStart
  let count := zcountGe w3 windowStart
  if count > cfg.max_requests then
    match oldestEntry w3 with
    | some (_, t) =>
      (.error (.limitExceeded (max (u64sub cfg.window_seconds (u64sub now t)) 1)), w3)
    | none => (.error (.limitExceeded cfg.window_seconds), w3)
  else
    (.ok (), w3)

/-- The sorted set as it stands right after the purge step of
`check_rate_limit` (insert, set-ttl, then purge), i.e. the set the count
and oldest-entry steps observe. -/
def purgedSet (cfg : RateLimitConfig) (now : Nat) (w : WindowSet) : WindowSet :=
  zremrangebyscore
    (expire (zadd w now (memberFor now)) (cfg.window_seconds * 2 % U32))
    0 (u64sub now cfg.window_seconds)

/-- Sequential execution: fold `check_rate_limit` over a list of call
timestamps against one key's sorted set. -/
def runTrace (cfg : RateLimitConfig) (w : WindowSet) : List Nat → WindowSet
  | [] => w
  | t :: ts => runTrace cfg (checkRateLimit cfg t w).2 ts

/-- The whole store: one sorted set per Redis key. `check_rate_limit`
addressed at client key `key` acts on the Redis key `rate_limit:{key}`
only, as every one of its five commands takes `redis_key` as first
argument. -/
def checkFull (cfg : RateLimitConfig) (now : Nat) (store : String → WindowSet)
    (key : String) : Except RateLimitError Unit × (String → WindowSet) :=
  ((checkRateLimit cfg now (store (rateLimitKey key))).1,
   fun k =>
     if k = rateLimitKey key then (checkRateLimit cfg now (store (rateLimitKey key))).2
     else store k)

/-- Outcome of one middleware `call` as observed by the client: the
request is forwarded to the inner service, or rejected with an HTTP
status and body. -/
inductive MiddlewareOutcome where
  | forwarded
  | rejected (status : Nat) (body : String)
deriving DecidableEq

/-- The decision logic of `RateLimitMiddlewareService::call` from
`api/middleware/rate_limit.rs`, as a function of the limiter's result:
on `Err(LimitExceeded(wait_time))` it returns
`ErrorBadRequest(format!(...))` — an HTTP 400 rejection; on
`Err(Redis(e))` it logs to stderr (I/O, not modelled) and falls through
to `fut.await`; on `Ok(())` it falls through to `fut.await`. Awaiting
the inner service's future is `forwarded`. -/
def middlewareCall (r : Except RateLimitError Unit) : MiddlewareOutcome :=
  match r with
  | .error (.limitExceeded waitTime) =>
    .rejected 400 ("Rate limit exceeded. Try again in " ++ toString waitTime ++ " seconds")
  | .error (.redis _) => .forwarded
  | .ok _ => .forwarded

deriving instance DecidableEq for Except






theorem checkRateLimitF_noFaults (cfg : RateLimitConfig) (now : Nat) (w : WindowSet) :
    checkRateLimitF noFaults cfg now w = checkRateLimit cfg now w := rfl

theorem u64sub_eq_sub {a b : Nat} (hba : b ≤ a) (ha : a < U64) : u64sub a b = a - b := by
  have hb : b < U64 := Nat.lt_of_le_of_lt hba ha
  unfold u64sub
  rw [Nat.mod_eq_of_lt ha, Nat.mod_eq_of_lt hb]
  have h1 : a + (U64 - b) = a - b + U64 := by omega
  rw [h1, Nat.add_mod_right, Nat.mod_eq_of_lt (by omega)]

theorem zadd_mem_self (w : WindowSet) (s : Nat) (m : String) :
    (m, s) ∈ (zadd w s m).entries := by
  unfold zadd
  cases h : w.entries.any (fun e => e.1 = m) with
  | false => simp [h]
  | true =>
    simp only [h, if_true]
    rw [List.any_eq_true] at h
    obtain ⟨e, he, hm⟩ := h
    simp only [decide_eq_true_eq] at hm
    exact List.mem_map.mpr ⟨e, he, by simp [hm]⟩

theorem zadd_scores_le {w : WindowSet} {t : Nat} (hw : ∀ e ∈ w.entries, e.2 ≤ t)
    {s : Nat} (hs : s ≤ t) (m : String) :
    ∀ e ∈ (zadd w s m).entries, e.2 ≤ t := by
  intro e he
  unfold zadd at he
  cases h : w.entries.any (fun x => x.1 = m) with
  | false =>
    simp [h] at he
    rcases he with he | rfl
    · exact hw e he
    · exact hs
  | true =>
    simp only [h, if_true] at he
    obtain ⟨a, ha, hfa⟩ := List.mem_map.mp he
    by_cases h2 : a.1 = m
    · simp [h2] at hfa; subst hfa; exact hs
    · simp [h2] at hfa; subst hfa; exact hw a ha

theorem purgedSet_entries_mem {cfg : RateLimitConfig} {now : Nat} (hnow : now < U64)
    (hwin : cfg.window_seconds ≤ now) (w : WindowSet) (e : String × Nat) :
    e ∈ (purgedSet cfg now w).entries ↔
      e ∈ (zadd w now (memberFor now)).entries ∧ now - cfg.window_seconds < e.2 := by
  unfold purgedSet zremrangebyscore expire
  rw [u64sub_eq_sub hwin hnow]
  simp [List.mem_filter]

theorem check_snd (cfg : RateLimitConfig) (now : Nat) (w : WindowSet) :
    (checkRateLimit cfg now w).2 = purgedSet cfg now w := by
  simp only [checkRateLimit, purgedSet]
  split
  · split <;> rfl
  · rfl

theorem foldl_oldestStep_mem :
    ∀ (l : List (String × Nat)) (acc : Option (String × Nat)) (e : String × Nat),
      List.foldl oldestStep acc l = some e → e ∈ l ∨ acc = some e := by
  intro l
  induction l with
  | nil => intro acc e h; exact Or.inr h
  | cons a t ih =>
    intro acc e h
    rw [List.foldl_cons] at h
    rcases ih (oldestStep acc a) e h with hmem | hacc
    · exact Or.inl (List.mem_cons_of_mem _ hmem)
    · cases acc with
      | none =>
        simp [oldestStep] at hacc
        exact Or.inl (by rw [← hacc]; exact List.mem_cons_self a t)
      | some b =>
        by_cases h2 : entryLt a b
        · simp [oldestStep, h2] at hacc
          exact Or.inl (by rw [← hacc]; exact List.mem_cons_self a t)
        · simp [oldestStep, h2] at hacc
          exact Or.inr (by rw [hacc])

theorem foldl_oldestStep_some :
    ∀ (l : List (String × Nat)) (b : String × Nat),
      ∃ e, List.foldl oldestStep (some b) l = some e := by
  intro l
  induction l with
  | nil => intro b; exact ⟨b, rfl⟩
  | cons a t ih =>
    intro b
    rw [List.foldl_cons]
    by_cases h2 : entryLt a b
    · have hstep : oldestStep (some b) a = some a := by simp [oldestStep, h2]
      rw [hstep]; exact ih a
    · have hstep : oldestStep (some b) a = some b := by simp [oldestStep, h2]
      rw [hstep]; exact ih b

theorem oldestEntry_mem {w : WindowSet} {e : String × Nat} (h : oldestEntry w = some e) :
    e ∈ w.entries := by
  rcases foldl_oldestStep_mem w.entries none e h with h1 | h2
  · exact h1
  · exact absurd h2 (by simp)

theorem oldestEntry_some_of_ne_nil {w : WindowSet} (h : w.entries ≠ []) :
    ∃ e, oldestEntry w = some e := by
  unfold oldestEntry
  cases hl : w.entries with
  | nil => exact absurd hl h
  | cons a t =>
    rw [List.foldl_cons]
    exact foldl_oldestStep_some t a

theorem zcountGe_pos_ne_nil {w : WindowSet} {lo : Nat} (h : 0 < zcountGe w lo) :
    w.entries ≠ [] := by
  intro hnil
  unfold zcountGe at h
  rw [hnil] at h
  simp at h

theorem zcountGe_pos_of_mem {w : WindowSet} {lo : Nat} {e : String × Nat}
    (he : e ∈ w.entries) (hle : lo ≤ e.2) : 0 < zcountGe w lo := by
  unfold zcountGe
  have hmem : e ∈ w.entries.filter (fun x => lo ≤ x.2) :=
    List.mem_filter.mpr ⟨he, by simp [hle]⟩
  exact List.length_pos.mpr (List.ne_nil_of_mem hmem)

theorem purgedSet_subset_zadd {cfg : RateLimitConfig} {now : Nat} {w : WindowSet}
    {e : String × Nat} (he : e ∈ (purgedSet cfg now w).entries) :
    e ∈ (zadd w now (memberFor now)).entries := by
  unfold purgedSet zremrangebyscore expire at he
  exact List.mem_of_mem_filter he

theorem purgedSet_bounds {cfg : RateLimitConfig} {now : Nat} {w : WindowSet}
    (hnow : now < U64) (hwin : cfg.window_seconds ≤ now)
    (hsc : ∀ e ∈ w.entries, e.2 ≤ now) :
    ∀ e ∈ (purgedSet cfg now w).entries,
      now - cfg.window_seconds < e.2 ∧ e.2 ≤ now := by
  intro e he
  have h := (purgedSet_entries_mem hnow hwin w e).1 he
  exact ⟨h.2, zadd_scores_le hsc le_rfl (memberFor now) e h.1⟩

theorem check_scores_le {cfg : RateLimitConfig} {now b : Nat} {w : WindowSet}
    (hsc : ∀ e ∈ w.entries, e.2 ≤ b) (hnb : now ≤ b) :
    ∀ e ∈ (checkRateLimit cfg now w).2.entries, e.2 ≤ b := by
  rw [check_snd]
  intro e he
  exact zadd_scores_le hsc hnb (memberFor now) e (purgedSet_subset_zadd he)

theorem runTrace_scores_le {cfg : RateLimitConfig} {b : Nat} :
    ∀ (ts : List Nat) (w : WindowSet), (∀ t ∈ ts, t ≤ b) →
      (∀ e ∈ w.entries, e.2 ≤ b) →
      ∀ e ∈ (runTrace cfg w ts).entries, e.2 ≤ b := by
  intro ts
  induction ts with
  | nil => intro w _ hw; exact hw
  | cons t ts ih =>
    intro w hts hw
    exact ih (checkRateLimit cfg t w).2
      (fun x hx => hts x (List.mem_cons_of_mem _ hx))
      (check_scores_le hw (hts t (List.mem_cons_self _ _)))

theorem check_deny_wait {cfg : RateLimitConfig} {now : Nat} {w : WindowSet} {wt : Nat}
    (hnow : now < U64) (hwin : cfg.window_seconds ≤ now)
    (hsc : ∀ e ∈ w.entries, e.2 ≤ now)
    (hden : (checkRateLimit cfg now w).1 = .error (.limitExceeded wt)) :
    ∃ m t, oldestEntry (purgedSet cfg now w) = some (m, t) ∧
      now - cfg.window_seconds < t ∧ t ≤ now ∧
      wt = cfg.window_seconds - (now - t) ∧ 1 ≤ wt ∧ wt ≤ cfg.window_seconds := by
  simp only [checkRateLimit] at hden
  split at hden
  case isTrue hc =>
    split at hden
    case h_1 m t heq =>
      have holdest : oldestEntry (purgedSet cfg now w) = some (m, t) := heq
      have hmem : (m, t) ∈ (purgedSet cfg now w).entries := oldestEntry_mem holdest
      have hb := purgedSet_bounds hnow hwin hsc (m, t) hmem
      have ht1 : now - cfg.window_seconds < t := hb.1
      have ht2 : t ≤ now := hb.2
      have hnt : u64sub now t = now - t := u64sub_eq_sub ht2 hnow
      have hnt2 : now - t ≤ cfg.window_seconds := by omega
      have hw2 : u64sub cfg.window_seconds (now - t) = cfg.window_seconds - (now - t) :=
        u64sub_eq_sub hnt2 (Nat.lt_of_le_of_lt hwin hnow)
      simp only [Prod.fst] at hden
      have hwt : max (u64sub cfg.window_seconds (u64sub now t)) 1 = wt := by
        injection hden with h1
        injection h1 with h2
      rw [hnt, hw2] at hwt
      have hge : 1 ≤ cfg.window_seconds - (now - t) := by omega
      refine ⟨m, t, holdest, ht1, ht2, ?_, ?_, ?_⟩ <;> omega
    case h_2 heq =>
      have hne : (purgedSet cfg now w).entries ≠ [] :=
        zcountGe_pos_ne_nil (Nat.lt_of_le_of_lt (Nat.zero_le _) hc)
      obtain ⟨e, he⟩ := oldestEntry_some_of_ne_nil hne
      have heq2 : oldestEntry (purgedSet cfg now w) = none := heq
      rw [heq2] at he
      exact absurd he (by simp)
  case isFalse =>
    exact absurd hden (by simp)

theorem check_result_eq (cfg : RateLimitConfig) (now : Nat) (w : WindowSet) :
    (checkRateLimit cfg now w).1 =
      if zcountGe (purgedSet cfg now w) (u64sub now cfg.window_seconds) > cfg.max_requests then
        match oldestEntry (purgedSet cfg now w) with
        | some (_, t) =>
          .error (.limitExceeded (max (u64sub cfg.window_seconds (u64sub now t)) 1))
        | none => .error (.limitExceeded cfg.window_seconds)
      else .ok () := by
  simp only [checkRateLimit, purgedSet]
  split
  · split <;> rfl
  · rfl

theorem rateLimitKey_inj {k1 k2 : String} (h : rateLimitKey k1 = rateLimitKey k2) :
    k1 = k2 := by
  unfold rateLimitKey at h
  have hd := congrArg String.data h
  simp only [String.data_append] at hd
  exact String.ext (List.append_cancel_left hd)

/-- Claim C1: the spec asserts that for `max_requests = N` exactly the
first `N` `check` calls for a fresh key within one window return Allow
and the `(N+1)`-th returns Deny, regardless of how the calls'
timestamps fall (including several calls sharing the same second). The
code violates this: with `max_requests = 1, window_seconds = 60` and two
calls both arriving at second 100 on a fresh key, both calls insert the
same member `req:100` (ZADD collapses them into one entry), the count
stays at 1, and the second call — the `(N+1)`-th — returns Allow instead
of Deny. This theorem evaluates the code at that failing input. -/
theorem claim1_shared_second_allows_excess :
    (checkRateLimit ⟨1, 60⟩ 100 WindowSet.empty).1 = .ok () ∧
    (checkRateLimit ⟨1, 60⟩ 100 (checkRateLimit ⟨1, 60⟩ 100 WindowSet.empty).2).1 = .ok () :=
  ⟨by decide, by decide⟩

/-- Claim C2: the spec requires every `check` invocation to insert a
window entry whose member string is unique to that invocation, so two
calls at the same second are never collapsed. The code builds the member
as `format!("req:{}", now)`, so two invocations at second 100 produce
the identical member `"req:100"` and the second ZADD collapses onto the
first entry: after two calls at second 100 on a fresh key the sorted set
holds exactly one entry, not two. -/
theorem claim2_members_not_unique :
    memberFor 100 = memberFor 100 ∧
    (runTrace ⟨10, 60⟩ WindowSet.empty [100, 100]).entries = [("req:100", 100)] ∧
    (runTrace ⟨10, 60⟩ WindowSet.empty [100, 100]).entries.length = 1 :=
  ⟨rfl, by decide, by decide⟩

/-- Claim C3 counterexample: the claim says an entry whose score equals
`now - window_seconds` is not removed by the purge and is included in
the count. With `window_seconds = 60` at `now = 100`, an entry at the
boundary score `40` IS removed by `ZREMRANGEBYSCORE key 0 40`
(inclusive upper bound), and the subsequent count sees only the
freshly inserted entry. -/
theorem claim3_boundary_entry_removed :
    ("old", 40) ∉ (purgedSet ⟨5, 60⟩ 100 ⟨[("old", 40)], 0⟩).entries ∧
    zcountGe (purgedSet ⟨5, 60⟩ 100 ⟨[("old", 40)], 0⟩) 40 = 1 :=
  ⟨by decide, by decide⟩

/-- Claim C3 (amended): the purge step of `check` removes exactly the
entries with score less than OR EQUAL to `now - window_seconds` —
boundary entries are removed, not retained — and the subsequent count
(`ZCOUNT window_start +inf`) counts exactly the surviving entries. -/
theorem claim3_purge_boundary_inclusive (cfg : RateLimitConfig) (now : Nat) (w : WindowSet)
    (hnow : now < U64) (hwin : cfg.window_seconds ≤ now) :
    (∀ e : String × Nat,
        e ∈ (purgedSet cfg now w).entries ↔
          e ∈ (zadd w now (memberFor now)).entries ∧ now - cfg.window_seconds < e.2) ∧
    zcountGe (purgedSet cfg now w) (u64sub now cfg.window_seconds) =
      (purgedSet cfg now w).entries.length := by
  constructor
  · exact purgedSet_entries_mem hnow hwin w
  · unfold zcountGe
    rw [u64sub_eq_sub hwin hnow]
    rw [List.filter_eq_self.mpr]
    intro e he
    have h := (purgedSet_entries_mem hnow hwin w e).1 he
    simp
    omega

/-- Witness for `claim3_purge_boundary_inclusive` at `now = 100`,
`window_seconds = 60`, starting set holding one boundary entry. -/
theorem claim3_purge_boundary_inclusive_witness :
    (∀ e : String × Nat,
        e ∈ (purgedSet ⟨5, 60⟩ 100 ⟨[("old", 40)], 0⟩).entries ↔
          e ∈ (zadd ⟨[("old", 40)], 0⟩ 100 (memberFor 100)).entries ∧ 100 - 60 < e.2) ∧
    zcountGe (purgedSet ⟨5, 60⟩ 100 ⟨[("old", 40)], 0⟩) (u64sub 100 60) =
      (purgedSet ⟨5, 60⟩ 100 ⟨[("old", 40)], 0⟩).entries.length :=
  claim3_purge_boundary_inclusive ⟨5, 60⟩ 100 ⟨[("old", 40)], 0⟩ (by decide) (by decide)

/-- Claim C9: the HTTP rate-limit middleware fails open on store errors:
on `RateLimitError::Redis` the request is still forwarded to the inner
service; only `LimitExceeded` causes a rejection, and that rejection is
a 400 Bad Request (`ErrorBadRequest`), not a dedicated rate-limit
status. -/
theorem claim9_middleware_fails_open :
    (∀ e, middlewareCall (.error (.redis e)) = .forwarded) ∧
    middlewareCall (.ok ()) = .forwarded ∧
    (∀ wt, middlewareCall (.error (.limitExceeded wt)) =
      .rejected 400 ("Rate limit exceeded. Try again in " ++ toString wt ++ " seconds")) ∧
    (∀ r st b, middlewareCall r = .rejected st b →
      st = 400 ∧ ∃ wt, r = .error (.limitExceeded wt)) := by
  refine ⟨fun e => rfl, rfl, fun wt => rfl, fun r st b h => ?_⟩
  match r with
  | .ok () => exact absurd h (by simp [middlewareCall])
  | .error (.redis e) => exact absurd h (by simp [middlewareCall])
  | .error (.limitExceeded wt) =>
    refine ⟨?_, wt, rfl⟩
    simp [middlewareCall] at h
    exact h.1.symm

/-- Claim C5: for every `check` call that returns Deny, the returned
`wait_seconds` satisfies `1 ≤ wait_seconds ≤ window_seconds`. Stated for
any store state whose entry scores are at most `now` (the invariant of
sequential executions, `runTrace_scores_le`), with `now` a valid `u64`
at least `window_seconds`. -/
theorem claim5_deny_wait_bounds {cfg : RateLimitConfig} {now : Nat} {w : WindowSet} {wt : Nat}
    (hnow : now < U64) (hwin : cfg.window_seconds ≤ now)
    (hsc : ∀ e ∈ w.entries, e.2 ≤ now)
    (hden : (checkRateLimit cfg now w).1 = .error (.limitExceeded wt)) :
    1 ≤ wt ∧ wt ≤ cfg.window_seconds := by
  obtain ⟨m, t, _, _, _, _, h1, h2⟩ := check_deny_wait hnow hwin hsc hden
  exact ⟨h1, h2⟩

/-- Witness for `claim5_deny_wait_bounds`: config `max_requests = 1,
window_seconds = 60`, a call at second 100 then a denied call at second
101, whose wait is 59. -/
theorem claim5_deny_wait_bounds_witness : 1 ≤ 59 ∧ 59 ≤ (60 : Nat) :=
  @claim5_deny_wait_bounds ⟨1, 60⟩ 101 (checkRateLimit ⟨1, 60⟩ 100 WindowSet.empty).2 59
    (by decide) (by decide) (by decide) (by decide)

/-- Claim C6: when `check` denies and the oldest remaining entry has
timestamp `t`, the returned wait is `window_seconds - (now - t)` floored
at a minimum of 1 second; when no oldest entry is found despite the
count exceeding the limit, the returned wait is exactly
`window_seconds`. Same state hypotheses as claim C5. -/
theorem claim6_deny_wait_formula {cfg : RateLimitConfig} {now : Nat} {w : WindowSet} {wt : Nat}
    (hnow : now < U64) (hwin : cfg.window_seconds ≤ now)
    (hsc : ∀ e ∈ w.entries, e.2 ≤ now)
    (hden : (checkRateLimit cfg now w).1 = .error (.limitExceeded wt)) :
    (∀ m t, oldestEntry (purgedSet cfg now w) = some (m, t) →
        wt = max (cfg.window_seconds - (now - t)) 1) ∧
    (oldestEntry (purgedSet cfg now w) = none → wt = cfg.window_seconds) := by
  obtain ⟨m0, t0, hold, ht1, ht2, hwt, hge, _⟩ := check_deny_wait hnow hwin hsc hden
  constructor
  · intro m t h
    rw [hold] at h
    have hpair : m0 = m ∧ t0 = t := by
      injection h with h2
      exact ⟨congrArg Prod.fst h2, congrArg Prod.snd h2⟩
    obtain ⟨rfl, rfl⟩ := hpair
    omega
  · intro h
    rw [hold] at h
    exact absurd h (by simp)

/-- Witness for `claim6_deny_wait_formula`: same denied call as the C5
witness; the oldest surviving entry is `("req:100", 100)` and the wait
is `60 - (101 - 100) = 59`. -/
theorem claim6_deny_wait_formula_witness : 59 = max (60 - (101 - 100)) 1 :=
  (@claim6_deny_wait_formula ⟨1, 60⟩ 101 (checkRateLimit ⟨1, 60⟩ 100 WindowSet.empty).2 59
    (by decide) (by decide) (by decide) (by decide)).1 "req:100" 100 (by decide)

/-- Claim C10: in sequential executions (any trace of prior `check`
calls at seconds no later than `now`, starting from a fresh key) with
`now ≥ window_seconds`, every unsigned subtraction of
`check_rate_limit` is underflow-free: `now - window_seconds` does not
wrap; after the purge every remaining entry — in particular the oldest,
timestamp `t` — satisfies `now - window_seconds < t ≤ now`; hence
`now - t < window_seconds`, the wrapping subtractions agree with the
mathematical ones, `window_seconds - (now - t) ≥ 1`, and the `.max(1)`
floor never changes the value. -/
theorem claim10_no_underflow (cfg : RateLimitConfig) (ts : List Nat) (now : Nat)
    (hts : ∀ t ∈ ts, t ≤ now) (hnow : now < U64) (hwin : cfg.window_seconds ≤ now) :
    u64sub now cfg.window_seconds = now - cfg.window_seconds ∧
    (∀ e ∈ (purgedSet cfg now (runTrace cfg WindowSet.empty ts)).entries,
        now - cfg.window_seconds < e.2 ∧ e.2 ≤ now) ∧
    (∀ m t, oldestEntry (purgedSet cfg now (runTrace cfg WindowSet.empty ts)) = some (m, t) →
        u64sub now t = now - t ∧ now - t < cfg.window_seconds ∧
        u64sub cfg.window_seconds (u64sub now t) = cfg.window_seconds - (now - t) ∧
        1 ≤ cfg.window_seconds - (now - t) ∧
        max (cfg.window_seconds - (now - t)) 1 = cfg.window_seconds - (now - t)) := by
  have hscores : ∀ e ∈ (runTrace cfg WindowSet.empty ts).entries, e.2 ≤ now :=
    runTrace_scores_le ts WindowSet.empty hts (by simp [WindowSet.empty])
  refine ⟨u64sub_eq_sub hwin hnow, purgedSet_bounds hnow hwin hscores, ?_⟩
  intro m t h
  have hmem := oldestEntry_mem h
  have hb := purgedSet_bounds hnow hwin hscores (m, t) hmem
  have h1 : u64sub now t = now - t := u64sub_eq_sub hb.2 hnow
  have hlt : now - t < cfg.window_seconds := by omega
  have h2 : u64sub cfg.window_seconds (now - t) = cfg.window_seconds - (now - t) :=
    u64sub_eq_sub (by omega) (Nat.lt_of_le_of_lt hwin hnow)
  exact ⟨h1, hlt, by rw [h1]; exact h2, by omega, by omega⟩

/-- Witness for `claim10_no_underflow`: one prior call at second 100,
the current call also at second 100, window 60. -/
theorem claim10_no_underflow_witness :
    u64sub 100 60 = 100 - 60 ∧
    (u64sub 100 100 = 100 - 100 ∧ 100 - 100 < 60 ∧
      u64sub 60 (u64sub 100 100) = 60 - (100 - 100) ∧
      1 ≤ 60 - (100 - 100) ∧ max (60 - (100 - 100)) 1 = 60 - (100 - 100)) :=
  ⟨(claim10_no_underflow ⟨1, 60⟩ [100] 100 (by decide) (by decide) (by decide)).1,
   (claim10_no_underflow ⟨1, 60⟩ [100] 100 (by decide) (by decide) (by decide)).2.2
     "req:100" 100 (by decide)⟩

/-- Claim C7: with `max_requests = 0` every `check` call (on any key
state) returns Deny, and on a fresh key the computed `wait_seconds`
equals `window_seconds`, derived from the entry the call itself just
inserted at timestamp `now`. Stated for positive windows and `now` at
least `window_seconds` (a Unix timestamp). -/
theorem claim7_zero_max_always_denies {cfg : RateLimitConfig} {now : Nat} (w : WindowSet)
    (hmax : cfg.max_requests = 0) (hpos : 1 ≤ cfg.window_seconds)
    (hwin : cfg.window_seconds ≤ now) (hnow : now < U64) :
    (∃ wt, (checkRateLimit cfg now w).1 = .error (.limitExceeded wt)) ∧
    (checkRateLimit cfg now WindowSet.empty).1 = .error (.limitExceeded cfg.window_seconds) := by
  have hdeny : ∀ v : WindowSet,
      zcountGe (purgedSet cfg now v) (u64sub now cfg.window_seconds) > cfg.max_requests := by
    intro v
    rw [hmax]
    apply zcountGe_pos_of_mem (e := (memberFor now, now))
    · rw [purgedSet_entries_mem hnow hwin]
      exact ⟨zadd_mem_self v now (memberFor now), by omega⟩
    · rw [u64sub_eq_sub hwin hnow]
      omega
  constructor
  · rw [check_result_eq, if_pos (hdeny w)]
    rcases holdest : oldestEntry (purgedSet cfg now w) with _ | ⟨m, t⟩
    · exact ⟨cfg.window_seconds, rfl⟩
    · exact ⟨max (u64sub cfg.window_seconds (u64sub now t)) 1, rfl⟩
  · rw [check_result_eq, if_pos (hdeny WindowSet.empty)]
    have hper : (purgedSet cfg now WindowSet.empty).entries = [(memberFor now, now)] := by
      have hnle : ¬ (now ≤ now - cfg.window_seconds) := by omega
      simp [purgedSet, zremrangebyscore, expire, zadd, WindowSet.empty,
        u64sub_eq_sub hwin hnow, List.filter, hnle]
    have holdest : oldestEntry (purgedSet cfg now WindowSet.empty) = some (memberFor now, now) := by
      unfold oldestEntry
      rw [hper]
      rfl
    rw [holdest]
    show Except.error (RateLimitError.limitExceeded
        (max (u64sub cfg.window_seconds (u64sub now now)) 1)) =
      Except.error (RateLimitError.limitExceeded cfg.window_seconds)
    have hzero : u64sub now now = 0 := by
      rw [u64sub_eq_sub le_rfl hnow]
      omega
    rw [hzero]
    have hws : u64sub cfg.window_seconds 0 = cfg.window_seconds := by
      rw [u64sub_eq_sub (Nat.zero_le _) (Nat.lt_of_le_of_lt hwin hnow)]
      omega
    rw [hws, Nat.max_eq_left hpos]

/-- Witness for `claim7_zero_max_always_denies`: `max_requests = 0`,
window 60, a call at second 100 against a non-empty prior state and
against a fresh key. -/
theorem claim7_zero_max_always_denies_witness :
    (∃ wt, (checkRateLimit ⟨0, 60⟩ 100 ⟨[("x", 70)], 0⟩).1 = .error (.limitExceeded wt)) ∧
    (checkRateLimit ⟨0, 60⟩ 100 WindowSet.empty).1 = .error (.limitExceeded 60) :=
  @claim7_zero_max_always_denies ⟨0, 60⟩ 100 ⟨[("x", 70)], 0⟩
    (by decide) (by decide) (by decide) (by decide)

theorem checkF_oldest_fault (cfg : RateLimitConfig) (now : Nat) (w : WindowSet) (e : String) :
    checkRateLimitF ⟨none, none, none, none, none, some e⟩ cfg now w =
      if zcountGe (purgedSet cfg now w) (u64sub now cfg.window_seconds) > cfg.max_requests then
        (.error (.redis e), purgedSet cfg now w)
      else
        (.ok (), purgedSet cfg now w) := rfl

/-- Claim C4: if any of the underlying store operations fails with a
store error, `check_rate_limit` returns the distinguished store-error
outcome `RateLimitError::Redis`; it never returns Allow (`Ok`) and never
returns Deny (`LimitExceeded`) in that case. Concretely: a fault in any
of the five unconditionally executed interactions (connection, insert,
set-ttl, purge, count) forces a `Redis` result; an `Ok` result implies
none of those five faulted; a `LimitExceeded` result additionally
implies the oldest-entry lookup (executed only on the deny path) did not
fault; and when the oldest-entry lookup is actually executed (the first
five interactions succeed and the post-purge count exceeds
`max_requests`) and it faults, the result is that `Redis` error — not
`Ok` and not `LimitExceeded`. -/
theorem claim4_store_error_surfaces (f : Faults) (cfg : RateLimitConfig) (now : Nat)
    (w : WindowSet) :
    ((f.conn ≠ none ∨ f.insert ≠ none ∨ f.ttl ≠ none ∨ f.purge ≠ none ∨ f.count ≠ none) →
      ∃ e, (checkRateLimitF f cfg now w).1 = .error (.redis e)) ∧
    ((checkRateLimitF f cfg now w).1 = .ok () →
      f.conn = none ∧ f.insert = none ∧ f.ttl = none ∧ f.purge = none ∧ f.count = none) ∧
    (∀ wt, (checkRateLimitF f cfg now w).1 = .error (.limitExceeded wt) →
      f.conn = none ∧ f.insert = none ∧ f.ttl = none ∧ f.purge = none ∧ f.count = none ∧
        f.oldest = none) ∧
    (∀ e, f.oldest = some e → f.conn = none → f.insert = none → f.ttl = none →
      f.purge = none → f.count = none →
      zcountGe (purgedSet cfg now w) (u64sub now cfg.window_seconds) > cfg.max_requests →
      (checkRateLimitF f cfg now w).1 = .error (.redis e)) := by
  obtain ⟨c, i, t, p, n, o⟩ := f
  refine ⟨?_, ?_, ?_, ?_⟩
  · intro hf
    cases c <;> cases i <;> cases t <;> cases p <;> cases n <;>
      first
        | exact ⟨_, rfl⟩
        | simp at hf
  · intro h
    cases c <;> cases i <;> cases t <;> cases p <;> cases n <;>
      first
        | exact ⟨rfl, rfl, rfl, rfl, rfl⟩
        | exact absurd h (by simp [checkRateLimitF])
  · intro wt h
    cases c <;> cases i <;> cases t <;> cases p <;> cases n <;> cases o <;>
      first
        | exact ⟨rfl, rfl, rfl, rfl, rfl, rfl⟩
        | (simp only [checkRateLimitF] at h; split at h <;> simp at h)
        | exact absurd h (by simp [checkRateLimitF])
  · intro e ho hc hi ht hp hn hcnt
    obtain rfl : c = none := hc
    obtain rfl : i = none := hi
    obtain rfl : t = none := ht
    obtain rfl : p = none := hp
    obtain rfl : n = none := hn
    obtain rfl : o = some e := ho
    rw [checkF_oldest_fault, if_pos hcnt]

/-- Witness for `claim4_store_error_surfaces`: a failing purge
operation surfaces as a `Redis` error, and a failing oldest-entry
lookup on an executed deny path (`max_requests = 0`, so the post-purge
count 1 exceeds the limit) surfaces as that `Redis` error instead of a
denial. -/
theorem claim4_store_error_surfaces_witness :
    (∃ e, (checkRateLimitF ⟨none, none, none, some "timeout", none, none⟩
      ⟨2, 60⟩ 100 WindowSet.empty).1 = .error (.redis e)) ∧
    (checkRateLimitF ⟨none, none, none, none, none, some "boom"⟩
      ⟨0, 60⟩ 100 WindowSet.empty).1 = .error (.redis "boom") :=
  ⟨(claim4_store_error_surfaces ⟨none, none, none, some "timeout", none, none⟩
      ⟨2, 60⟩ 100 WindowSet.empty).1 (by simp),
   (claim4_store_error_surfaces ⟨none, none, none, none, none, some "boom"⟩
      ⟨0, 60⟩ 100 WindowSet.empty).2.2.2 "boom" rfl rfl rfl rfl rfl rfl (by decide)⟩

/-- Claim C8: for distinct client keys `k1 ≠ k2`, a `check` call for
`k1` writes only the store key `rate_limit:{k1}` (the state under
`rate_limit:{k2}` is unchanged), reads only `rate_limit:{k1}` (both the
decision and the written state depend only on the store's value at that
key), and consequently the decision for `k1` is unaffected by a
preceding `check` call for `k2`. -/
theorem claim8_distinct_keys_independent (cfg : RateLimitConfig) (now1 now2 : Nat)
    (store store' : String → WindowSet) (k1 k2 : String) (hne : k1 ≠ k2)
    (hagree : store' (rateLimitKey k1) = store (rateLimitKey k1)) :
    (checkFull cfg now1 store k1).2 (rateLimitKey k2) = store (rateLimitKey k2) ∧
    (checkFull cfg now1 store' k1).1 = (checkFull cfg now1 store k1).1 ∧
    (checkFull cfg now1 store' k1).2 (rateLimitKey k1) =
      (checkFull cfg now1 store k1).2 (rateLimitKey k1) ∧
    (checkFull cfg now2 (checkFull cfg now1 store k2).2 k1).1 =
      (checkFull cfg now2 store k1).1 := by
  have hk21 : rateLimitKey k2 ≠ rateLimitKey k1 := fun h => hne (rateLimitKey_inj h).symm
  have hk12 : rateLimitKey k1 ≠ rateLimitKey k2 := fun h => hne (rateLimitKey_inj h)
  refine ⟨?_, ?_, ?_, ?_⟩
  · simp [checkFull, hk21]
  · simp [checkFull, hagree]
  · simp [checkFull, hagree]
  · simp [checkFull, hk12]

/-- Witness for `claim8_distinct_keys_independent`: keys `"a"` and
`"b"`, an empty store on the frame side and a one-entry store on the
read-dependency side. -/
theorem claim8_distinct_keys_independent_witness :
    (checkFull ⟨1, 60⟩ 100 (fun _ => WindowSet.empty) "a").2 (rateLimitKey "b") =
      WindowSet.empty ∧
    (checkFull ⟨1, 60⟩ 100 (fun _ => WindowSet.empty) "a").1 =
      (checkFull ⟨1, 60⟩ 100 (fun _ => WindowSet.empty) "a").1 ∧
    (checkFull ⟨1, 60⟩ 100 (fun _ => WindowSet.empty) "a").2 (rateLimitKey "a") =
      (checkFull ⟨1, 60⟩ 100 (fun _ => WindowSet.empty) "a").2 (rateLimitKey "a") ∧
    (checkFull ⟨1, 60⟩ 101 (checkFull ⟨1, 60⟩ 100 (fun _ => WindowSet.empty) "b").2 "a").1 =
      (checkFull ⟨1, 60⟩ 101 (fun _ => WindowSet.empty) "a").1 :=
  claim8_distinct_keys_independent ⟨1, 60⟩ 100 101 (fun _ => WindowSet.empty)
    (fun _ => WindowSet.empty) "a" "b" (by decide) rfl
